import Mathlib

set_option maxRecDepth 4000

/-!
Verification development for the cover-letter generator (src/app.py, active code,
lines 1-168).  Python strings are modelled as `List Char` (ASCII granularity for the
regex character classes `\w`, `\s`, `\d`, for `str.isupper` and for `str.strip`);
machine-level concerns do not arise.  External libraries (PyPDF2, python-docx, the
generation service) are black boxes: an uploaded file carries the outcome each
decoder would produce for it, and the module-level Streamlit form values are passed
as explicit parameters.
-/

namespace CoverLetter

/-- Python whitespace class `\s` (ASCII part): space, tab, newline, carriage
return, vertical tab, form feed. -/
def pySpace (c : Char) : Bool :=
  c == ' ' || c == '\t' || c == '\n' || c == '\r' || c == '\x0b' || c == '\x0c'

/-- The character class `[\w\.-]` of the email regex in `extract_contact_info`
(app.py line 71): word characters, dot, hyphen. -/
def emailChar (c : Char) : Bool :=
  c.isAlphanum || c == '_' || c == '.' || c == '-'

/-- The character class `[\d\s\-]` of the phone regex in `extract_contact_info`
(app.py line 72): digits, whitespace, hyphen. -/
def phoneSep (c : Char) : Bool :=
  c.isDigit || pySpace c || c == '-'

/-- Python `str.split("\n")` (used by `export_pdf`, app.py line 134): every
newline is a separator, empty pieces are kept. -/
def splitOnNl : List Char → List (List Char)
  | [] => [[]]
  | c :: cs =>
    if c = '\n' then [] :: splitOnNl cs
    else
      match splitOnNl cs with
      | [] => [[c]]
      | p :: ps => (c :: p) :: ps

/-- Python `str.splitlines()` (used by `extract_contact_info`, app.py line 73),
modelled for `\n` line breaks: like split on newline but with no trailing empty
piece ("a\n".splitlines() = ["a"], "".splitlines() = []). -/
def splitlinesL (l : List Char) : List (List Char) :=
  let ps := splitOnNl l
  if ps.getLast? = some [] then ps.dropLast else ps

/-- Python `str.strip()`: remove leading and trailing whitespace. -/
def stripL (l : List Char) : List Char :=
  ((l.dropWhile pySpace).reverse.dropWhile pySpace).reverse

/-- The filter of the name generator in `extract_contact_info` (app.py line 73):
`if line and line[0].isupper()` - the raw line is non-empty and its first
character (before any stripping) is an uppercase letter. -/
def nameLineOk : List Char → Bool
  | [] => false
  | c :: _ => c.isUpper

/-- The name component of `extract_contact_info` (app.py line 73):
`next((line.strip() for line in text.splitlines()[:10] if line and
line[0].isupper()), None)`. -/
def extractName (text : List Char) : Option (List Char) :=
  (((splitlinesL text).take 10).find? nameLineOk).map stripL

/-- One attempt of the regex `[\w\.-]+@[\w\.-]+` at a fixed start position
(the suffix `l`): a maximal non-empty run of class characters, a literal `@`,
then a maximal non-empty run of class characters (greedy matching; the first
run can never stop early because `@` is outside the class). -/
def matchEmailAt (l : List Char) : Option (List Char) :=
  if l.takeWhile emailChar = [] then none
  else
    match l.dropWhile emailChar with
    | c :: rest =>
      if c = '@' then
        if rest.takeWhile emailChar = [] then none
        else some (l.takeWhile emailChar ++ '@' :: rest.takeWhile emailChar)
      else none
    | [] => none

/-- The alternation `(\+62|08|62)` of the phone regex: which prefix matches at
this position, and the remainder.  The three alternatives start with distinct
characters, so at most one applies. -/
def phonePrefixSplit : List Char → Option (List Char × List Char)
  | '+' :: '6' :: '2' :: rest => some (['+', '6', '2'], rest)
  | '0' :: '8' :: rest => some (['0', '8'], rest)
  | '6' :: '2' :: rest => some (['6', '2'], rest)
  | _ => none

/-- The negative lookbehind `(?<!\d)`: the character before the match start
(none at the start of the text). -/
def prevIsDigit : Option Char → Bool
  | none => false
  | some c => c.isDigit

/-- First character of a suffix is a digit (for the negative lookahead
`(?!\d)`; an empty suffix has none). -/
def headIsDigit : List Char → Bool
  | [] => false
  | c :: _ => c.isDigit

/-- One attempt of the regex `(?<!\d)(\+62|08|62)[\d\s\-]{8,}(?!\d)` at a fixed
start position, `prev` being the character just before that position.  The
greedy quantifier takes the maximal run of `[\d\s\-]` characters; the character
after a maximal run is outside the class, hence never a digit, so the trailing
lookahead always succeeds on the maximal run and no backtracking can occur. -/
def matchPhoneAt (prev : Option Char) (l : List Char) : Option (List Char) :=
  if prevIsDigit prev then none
  else
    match phonePrefixSplit l with
    | none => none
    | some (pre, rest) =>
      if 8 ≤ (rest.takeWhile phoneSep).length then some (pre ++ rest.takeWhile phoneSep)
      else none

/-- The scan loop of Python `re.search`: try the match at every start position
from left to right, returning the first success.  `prev` threads the character
before the current position for lookbehind. -/
def reSearchAux (f : Option Char → List Char → Option (List Char)) :
    Option Char → List Char → Option (List Char)
  | prev, [] => f prev []
  | prev, c :: cs =>
    match f prev (c :: cs) with
    | some m => some m
    | none => reSearchAux f (some c) cs

/-- `re.search(r"[\w\.-]+@[\w\.-]+", text)` of app.py line 71 (the matcher
ignores the preceding character: no lookbehind in this pattern). -/
def emailSearch (l : List Char) : Option (List Char) :=
  reSearchAux (fun _ s => matchEmailAt s) none l

/-- `re.search(r"(?<!\d)(\+62|08|62)[\d\s\-]{8,}(?!\d)", text)` of app.py
line 72. -/
def phoneSearch (l : List Char) : Option (List Char) :=
  reSearchAux matchPhoneAt none l

/-- `extract_contact_info` (app.py lines 70-74): returns
`(name, email.group() if email else "", phone.group() if phone else "")` -
the name is `None` when absent while a missing email or phone is the empty
string.  Total by construction: the only partial operation in the source,
`line[0]`, is guarded by the truthiness test `line`. -/
def extract_contact_info (text : List Char) :
    Option (List Char) × List Char × List Char :=
  (extractName text, (emailSearch text).getD [], (phoneSearch text).getD [])

/-- `hr_line` of `generate_prompt` (app.py line 78):
`f"to {hr_name}, {hr_role}" if hr_name and hr_role else hr_name or
"the Hiring Manager"` (Python truthiness of a string is non-emptiness). -/
def hr_line (hr_name hr_role : String) : String :=
  if hr_name ≠ "" ∧ hr_role ≠ "" then "to " ++ hr_name ++ ", " ++ hr_role
  else if hr_name ≠ "" then hr_name
  else "the Hiring Manager"

/-- A piece of a Python f-string: literal text or an interpolated name. -/
inductive FItem where
  | lit (s : String)
  | var (x : String)

/-- Evaluation of an f-string: pieces are evaluated left to right; an
interpolated name that is not bound in the enclosing scope raises `NameError`
(modelled as `Except.error` carrying the unbound name). -/
def fstringEval (env : List (String × String)) : List FItem → Except String String
  | [] => .ok ""
  | .lit s :: rest => (fstringEval env rest).map (fun r => s ++ r)
  | .var x :: rest =>
    match env.lookup x with
    | none => .error x
    | some v => (fstringEval env rest).map (fun r => v ++ r)

/-- The f-string template returned by `generate_prompt` (app.py lines 81-127),
transcribed piecewise with each `{...}` interpolation as a `var` item.  Note
the `var "today_date"` from source line 119: the active code defines `today`
(line 77), not `today_date`. -/
def promptTemplate : List FItem :=
  [ .lit "\nYou are a professional cover letter writer. Your task is to create an engaging, professional, and customized cover letter using the following:\n\n📅 **Date:** ",
    .var "today",
    .lit "\n\n👤 **Applicant Info:**\n- Name: ",
    .var "name",
    .lit "\n- Email: ",
    .var "email",
    .lit "\n- Phone: ",
    .var "phone",
    .lit "\n\n📄 **Resume (analyze for achievements, skills, and experiences):**\n",
    .var "cv_text",
    .lit "\n\n💼 **Job Info:**\n- Position: ",
    .var "job_title",
    .lit "\n- Company: ",
    .var "company",
    .lit "\n- Description: ",
    .var "job_desc",
    .lit "\n- Requirements: ",
    .var "job_reqs",
    .lit "\n\n🎯 **Instructions:**\n- Language: Write the letter in **",
    .var "lang",
    .lit "**.\n- Length: Target approx. **",
    .var "word_len",
    .lit " words** (+/- 15%).\n- Address to: **",
    .var "hr_line",
    .lit "**\n\n📝 **Structure & Tone:**\n1. **Header:** Applicant\x27s contact, date, and recipient/company details.\n2. **Salutation:** Use specific name if given (e.g., \"Dear Mr./Ms. X\"), or \"Dear Hiring Manager\".\n3. **Intro:** Show enthusiasm and suitability for the role.\n4. **Body:**\n    - Match top 2–3 job requirements with real achievements/skills from CV.\n    - Use real examples and quantify (e.g., \"increased efficiency by 20%\").\n    - Highlight what value you bring to ",
    .var "company",
    .lit ".\n5. **Motivation:** Optional — why you want to work at ",
    .var "company",
    .lit ".\n6. **Closing:** Reaffirm interest and politely invite follow-up.\n7. **Signature:** Full name\n\n    CRITICAL INSTRUCTIONS:\n    1. Do not include any placeholder text in square brackets like [Your Name], [Date], [Company Name], [Your Email], [Your Phone], etc. \n    2. Use the actual provided information: ",
    .var "name",
    .lit ", ",
    .var "email",
    .lit ", ",
    .var "phone",
    .lit ", ",
    .var "today_date",
    .lit ", ",
    .var "company",
    .lit ", etc.\n    3. Do not include any metadata, instructions, or notes in square brackets in the final output.\n    4. The output should be a clean, professional cover letter ready for immediate use.\n    5. Remove any text that appears in square brackets [ ] completely from the final output.\n    6. Always structure the paragrapgh and text allignment like professional cover letter\n    7. Do not include any address and instruction to fill the address\n\n📌 Avoid copying the CV. Instead, synthesize and write a flowing, impactful letter.\n" ]

/-- `generate_prompt` (app.py lines 76-127).  The form values (`job_title`,
`company`, ..., `language`) are module-level names read by the function and are
passed here as parameters, as is `today` (`datetime.now().strftime("%d %B %Y")`,
an external input).  The scope in which the f-string is evaluated binds the
parameters, the locals `today`, `hr_line`, `lang`, and the module-level form
names; it does not bind `today_date`. -/
def generate_prompt (cv_text name email phone : String)
    (job_title company job_desc job_reqs : String) (word_len : Nat)
    (hr_name hr_role language today : String) : Except String String :=
  fstringEval
    [("today", today), ("name", name), ("email", email), ("phone", phone),
     ("cv_text", cv_text), ("job_title", job_title), ("company", company),
     ("job_desc", job_desc), ("job_reqs", job_reqs),
     ("word_len", toString word_len), ("hr_line", hr_line hr_name hr_role),
     ("lang", if language = "Bahasa Indonesia" then "Indonesian (Bahasa Indonesia)" else "English"),
     ("hr_name", hr_name), ("hr_role", hr_role), ("language", language)]
    promptTemplate

/-- The paragraph texts of `export_pdf` (app.py line 134):
`[Paragraph(p.strip(), style) for p in letter_text.split('\n') if p.strip()]` -
split on single newlines, keep the lines whose strip is non-empty, use the
stripped line as the paragraph text. -/
def exportParagraphs (letter_text : List Char) : List (List Char) :=
  ((splitOnNl letter_text).filter (fun p => !(stripL p).isEmpty)).map stripL

/-- Outcome of running a Python expression: a value, or a raised exception. -/
inductive PyResult (α : Type) where
  | ok (val : α)
  | exc (msg : String)
deriving DecidableEq, Repr

/-- An uploaded file: its declared media type and the outcome each of the three
black-box decoders (`extract_text_from_pdf`, `extract_text_from_docx`,
UTF-8 decode of the raw bytes) would produce for it. -/
structure UploadedFile where
  type : String
  pdfText : PyResult String
  docxText : PyResult String
  txtText : PyResult String
deriving DecidableEq, Repr

/-- `extract_text` (app.py lines 61-68): dispatch on the declared media type;
any other type yields the empty string.  The active code has no exception
handler, so a decoder failure propagates. -/
def extract_text (file : UploadedFile) : PyResult String :=
  if file.type = "application/pdf" then file.pdfText
  else if file.type = "application/vnd.openxmlformats-officedocument.wordprocessingml.document" then
    file.docxText
  else if file.type = "text/plain" then file.txtText
  else .ok ""

/-- The state of one form submission (app.py lines 39-50 and the manual
fallback inputs of lines 146-151): form field values, whether the submit button
was pressed, the uploaded file, and the values the fallback text inputs carry
(empty when the user typed nothing). -/
structure AppState where
  job_title : String
  company : String
  job_desc : String
  job_reqs : String
  word_len : Nat
  hr_name : String
  hr_role : String
  language : String
  submitted : Bool
  cv_file : Option UploadedFile
  manual_name : String
  manual_email : String
  manual_phone : String
deriving DecidableEq, Repr

/-- The contact triple after the extraction-plus-manual-fallback steps of the
submitted branch (app.py lines 140-151), or `none` when that branch is not
reached (not submitted, no file) or text extraction raised.  Each `if not x:`
fallback follows Python truthiness: the manual value replaces a `None` name or
an empty extracted field. -/
def pipelineContact (st : AppState) : Option (List Char × List Char × List Char) :=
  match st.cv_file with
  | none => none
  | some f =>
    if st.submitted then
      match extract_text f with
      | .exc _ => none
      | .ok cv_text =>
        let r := extract_contact_info cv_text.toList
        some
          (match r.1 with
           | none => st.manual_name.toList
           | some nm => if nm = [] then st.manual_name.toList else nm,
           if r.2.1 = [] then st.manual_email.toList else r.2.1,
           if r.2.2 = [] then st.manual_phone.toList else r.2.2)
    else none

/-- Whether the submitted branch reaches the generation attempt (app.py
line 153: `if name and email and phone:` guarding the spinner block that builds
the prompt and calls the model): the form was submitted with a file, extraction
did not raise, and the three resolved contact fields are non-empty.  The job
fields are not consulted. -/
def generationAttempted (st : AppState) : Bool :=
  match pipelineContact st with
  | none => false
  | some (n, e, p) => !n.isEmpty && !e.isEmpty && !p.isEmpty

/-- The email-pattern shape from the spec: word/dot/hyphen characters on each
side of a single `@`. -/
def EmailShape (m : List Char) : Prop :=
  ∃ a b : List Char, m = a ++ '@' :: b ∧ a ≠ [] ∧ b ≠ [] ∧
    (∀ c ∈ a, emailChar c = true) ∧ (∀ c ∈ b, emailChar c = true)

/-- `m` occurs in `t` as an email-pattern match starting at index `i`. -/
def EmailOccursAt (t m : List Char) (i : Nat) : Prop :=
  EmailShape m ∧ ∃ u v, t = u ++ m ++ v ∧ u.length = i

/-- The phone-pattern shape from the spec: a `+62`, `08` or `62` head followed
by 8 or more digit/whitespace/hyphen characters. -/
def PhoneShape (m : List Char) : Prop :=
  ∃ pre run, m = pre ++ run ∧
    (pre = ['+', '6', '2'] ∨ pre = ['0', '8'] ∨ pre = ['6', '2']) ∧
    8 ≤ run.length ∧ ∀ c ∈ run, phoneSep c = true

/-- The character before position `i` when `t = u ++ ...` with `u` the prefix
of length `i`: the last character of `u`, or `prev` when `u` is empty (at the
start of the text there is none). -/
def lastOr : Option Char → List Char → Option Char
  | prev, [] => prev
  | _, c :: cs => lastOr (some c) cs

/-- `m` occurs in `t` as a phone-pattern match starting at index `i`, not
immediately preceded or followed by another digit. -/
def PhoneOccursAt (t m : List Char) (i : Nat) : Prop :=
  PhoneShape m ∧ ∃ u v, t = u ++ m ++ v ∧ u.length = i ∧
    prevIsDigit (lastOr none u) = false ∧ headIsDigit v = false

/-- The name rule as the spec's words state it (for comparison with the code):
the first of the first 10 lines that is non-empty after trimming and whose
first character after trimming is uppercase, returned trimmed. -/
def specNameRule (text : List Char) : Option (List Char) :=
  (((splitlinesL text).take 10).find? (fun l => nameLineOk (stripL l))).map stripL

/-- Scenario A input text of the spec (the quoted string taken literally,
trailing dots included). -/
def scenarioA : List Char := "John Smith\njohn.smith@mail.com\n08123456789\n...".toList

/-- Scenario D letter text of the spec. -/
def scenarioD : List Char := "Dear Hiring Manager,\n\nPara one.\n\nPara two.".toList

/-- A submission state whose job title and job description are empty but whose
uploaded file yields a complete contact triple. -/
def stateMissingJob : AppState :=
  { job_title := "", company := "Acme", job_desc := "", job_reqs := "",
    word_len := 100, hr_name := "", hr_role := "", language := "English",
    submitted := true,
    cv_file := some { type := "text/plain", pdfText := .ok "", docxText := .ok "",
                      txtText := .ok "John Smith\njohn@mail.com\n0812345678" },
    manual_name := "", manual_email := "", manual_phone := "" }

/-- A PDF upload whose decoder raises. -/
def corruptPdf : UploadedFile :=
  { type := "application/pdf", pdfText := .exc "PdfReadError", docxText := .ok "",
    txtText := .ok "" }

/-! ### List helper lemmas -/

theorem takeWhile_append_all {p : Char → Bool} (a r : List Char)
    (h : ∀ c ∈ a, p c = true) : (a ++ r).takeWhile p = a ++ r.takeWhile p := by
  induction a with
  | nil => rfl
  | cons c cs ih =>
    have hc : p c = true := h c (List.mem_cons_self c cs)
    simp only [List.cons_append, List.takeWhile_cons, hc, if_true]
    rw [ih (fun x hx => h x (List.mem_cons_of_mem _ hx))]

theorem dropWhile_append_all {p : Char → Bool} (a r : List Char)
    (h : ∀ c ∈ a, p c = true) : (a ++ r).dropWhile p = r.dropWhile p := by
  induction a with
  | nil => rfl
  | cons c cs ih =>
    have hc : p c = true := h c (List.mem_cons_self c cs)
    simp only [List.cons_append, List.dropWhile_cons, hc, if_true]
    exact ih (fun x hx => h x (List.mem_cons_of_mem _ hx))

theorem takeWhile_append_stop {p : Char → Bool} (a : List Char) {x : Char} (r : List Char)
    (h : ∀ c ∈ a, p c = true) (hx : p x = false) :
    (a ++ x :: r).takeWhile p = a := by
  rw [takeWhile_append_all a (x :: r) h, List.takeWhile_cons, hx]
  simp

theorem dropWhile_append_stop {p : Char → Bool} (a : List Char) {x : Char} (r : List Char)
    (h : ∀ c ∈ a, p c = true) (hx : p x = false) :
    (a ++ x :: r).dropWhile p = x :: r := by
  rw [dropWhile_append_all a (x :: r) h, List.dropWhile_cons, hx]
  simp

theorem dropWhile_head_false {p : Char → Bool} :
    ∀ {l : List Char} {c : Char} {cs : List Char}, l.dropWhile p = c :: cs → p c = false := by
  intro l
  induction l with
  | nil => intro c cs h; simp [List.dropWhile] at h
  | cons a as ih =>
    intro c cs h
    by_cases ha : p a
    · rw [List.dropWhile_cons, if_pos ha] at h
      exact ih h
    · rw [List.dropWhile_cons, if_neg ha] at h
      cases h
      simpa using ha

theorem not_phoneSep_not_digit {c : Char} (h : phoneSep c = false) : c.isDigit = false := by
  cases hd : c.isDigit with
  | false => rfl
  | true => rw [phoneSep, hd] at h; simp at h

theorem find?_some_split {α : Type} {p : α → Bool} :
    ∀ {l : List α} {a : α}, l.find? p = some a →
      ∃ l₁ l₂, l = l₁ ++ a :: l₂ ∧ p a = true ∧ ∀ x ∈ l₁, p x = false := by
  intro l
  induction l with
  | nil => intro a h; simp [List.find?] at h
  | cons b bs ih =>
    intro a h
    by_cases hb : p b
    · rw [List.find?_cons_of_pos _ hb] at h
      cases h
      exact ⟨[], bs, rfl, hb, by simp⟩
    · rw [List.find?_cons_of_neg _ hb] at h
      rcases ih h with ⟨l₁, l₂, hsplit, hp, hall⟩
      refine ⟨b :: l₁, l₂, by rw [hsplit, List.cons_append], hp, ?_⟩
      intro x hx
      rcases List.mem_cons.mp hx with rfl | hx
      · simpa using hb
      · exact hall x hx

theorem splitOnNl_no_nl {l : List Char} (h : '\n' ∉ l) : splitOnNl l = [l] := by
  induction l with
  | nil => rfl
  | cons c cs ih =>
    have hc : c ≠ '\n' := fun hcc => h (hcc ▸ List.mem_cons_self c cs)
    have hcs : '\n' ∉ cs := fun hmem => h (List.mem_cons_of_mem _ hmem)
    rw [splitOnNl, if_neg hc, ih hcs]

/-! ### Generic lemmas about the `re.search` scan loop -/

theorem reSearchAux_eq_none_iff (f : Option Char → List Char → Option (List Char)) :
    ∀ (l : List Char) (prev : Option Char),
      reSearchAux f prev l = none ↔
        ∀ u v : List Char, l = u ++ v → f (lastOr prev u) v = none := by
  intro l
  induction l with
  | nil =>
    intro prev
    constructor
    · intro h u v huv
      rcases List.append_eq_nil.mp huv.symm with ⟨rfl, rfl⟩
      exact h
    · intro h
      exact h [] [] rfl
  | cons c cs ih =>
    intro prev
    constructor
    · intro h u v huv
      cases hf : f prev (c :: cs) with
      | some m =>
        simp only [reSearchAux, hf] at h
        cases h
      | none =>
        simp only [reSearchAux, hf] at h
        cases u with
        | nil =>
          simp only [List.nil_append] at huv
          rw [huv] at hf
          exact hf
        | cons c' u' =>
          rw [List.cons_append] at huv
          injection huv with hc1 hc2
          subst hc1
          exact (ih (some c)).mp h u' v hc2
    · intro h
      cases hf : f prev (c :: cs) with
      | some m =>
        have := h [] (c :: cs) rfl
        rw [show lastOr prev ([] : List Char) = prev from rfl] at this
        rw [hf] at this
        cases this
      | none =>
        simp only [reSearchAux, hf]
        refine (ih (some c)).mpr ?_
        intro u v huv
        exact h (c :: u) v (by rw [List.cons_append, huv])


theorem reSearchAux_eq_some (f : Option Char → List Char → Option (List Char)) :
    ∀ (l : List Char) (prev : Option Char) (m : List Char),
      reSearchAux f prev l = some m →
      ∃ u v, l = u ++ v ∧ f (lastOr prev u) v = some m ∧
        ∀ u' v', l = u' ++ v' → u'.length < u.length → f (lastOr prev u') v' = none := by
  intro l
  induction l with
  | nil =>
    intro prev m h
    refine ⟨[], [], rfl, h, ?_⟩
    intro u' v' _ hlen
    simp at hlen
  | cons c cs ih =>
    intro prev m h
    cases hf : f prev (c :: cs) with
    | some m' =>
      simp only [reSearchAux, hf] at h
      injection h with h
      subst h
      refine ⟨[], c :: cs, rfl, hf, ?_⟩
      intro u' v' _ hlen
      simp at hlen
    | none =>
      simp only [reSearchAux, hf] at h
      rcases ih (some c) m h with ⟨u, v, hsplit, hmatch, hmin⟩
      refine ⟨c :: u, v, by rw [List.cons_append, hsplit], hmatch, ?_⟩
      intro u' v' h' hlen
      cases u' with
      | nil =>
        simp only [List.nil_append] at h'
        rw [h'] at hf
        exact hf
      | cons c' u'' =>
        rw [List.cons_append] at h'
        injection h' with hc1 hc2
        subst hc1
        refine hmin u'' v' hc2 ?_
        simp only [List.length_cons] at hlen
        omega

/-! ### The email matcher against the email-pattern shape -/

theorem matchEmailAt_some {l m : List Char} (h : matchEmailAt l = some m) :
    EmailShape m ∧ ∃ v, l = m ++ v := by
  unfold matchEmailAt at h
  split at h
  · cases h
  next hr1 =>
    split at h
    next c rest hdrop =>
      split at h
      next hc =>
        subst hc
        split at h
        · cases h
        next hr2 =>
          injection h with h
          subst h
          constructor
          · refine ⟨l.takeWhile emailChar, rest.takeWhile emailChar, rfl, hr1, hr2, ?_, ?_⟩
            · intro x hx; exact List.mem_takeWhile_imp hx
            · intro x hx; exact List.mem_takeWhile_imp hx
          · refine ⟨rest.dropWhile emailChar, ?_⟩
            conv_lhs => rw [← List.takeWhile_append_dropWhile (p := emailChar) (l := l)]
            rw [hdrop]
            conv_lhs => rw [← List.takeWhile_append_dropWhile (p := emailChar) (l := rest)]
            simp [List.append_assoc]
      · cases h
    next hdrop =>
      cases h

theorem emailChar_at : emailChar '@' = false := by decide

theorem matchEmailAt_complete {m : List Char} (v : List Char) (hm : EmailShape m) :
    ∃ m', matchEmailAt (m ++ v) = some m' := by
  rcases hm with ⟨a, b, rfl, ha, hb, hA, hB⟩
  have hL : (a ++ '@' :: b) ++ v = a ++ '@' :: (b ++ v) := by
    simp [List.append_assoc]
  have h1 : ((a ++ '@' :: b) ++ v).takeWhile emailChar = a := by
    rw [hL]; exact takeWhile_append_stop a (b ++ v) hA emailChar_at
  have h2 : ((a ++ '@' :: b) ++ v).dropWhile emailChar = '@' :: (b ++ v) := by
    rw [hL]; exact dropWhile_append_stop a (b ++ v) hA emailChar_at
  have h3 : (b ++ v).takeWhile emailChar = b ++ v.takeWhile emailChar :=
    takeWhile_append_all b v hB
  have hbv : b ++ v.takeWhile emailChar ≠ [] := by
    intro hcon
    exact hb (List.append_eq_nil.mp hcon).1
  refine ⟨a ++ '@' :: (b ++ v.takeWhile emailChar), ?_⟩
  unfold matchEmailAt
  rw [h1, h2, if_neg ha]
  simp [h3, hbv]

/-! ### The phone matcher against the phone-pattern shape -/

theorem phonePrefixSplit_eq {l pre rest : List Char}
    (h : phonePrefixSplit l = some (pre, rest)) :
    l = pre ++ rest ∧ (pre = ['+', '6', '2'] ∨ pre = ['0', '8'] ∨ pre = ['6', '2']) := by
  unfold phonePrefixSplit at h
  split at h
  · cases h; exact ⟨rfl, Or.inl rfl⟩
  · cases h; exact ⟨rfl, Or.inr (Or.inl rfl)⟩
  · cases h; exact ⟨rfl, Or.inr (Or.inr rfl)⟩
  · cases h

theorem matchPhoneAt_some {prev : Option Char} {l m : List Char}
    (h : matchPhoneAt prev l = some m) :
    PhoneShape m ∧ prevIsDigit prev = false ∧
      ∃ v, l = m ++ v ∧ headIsDigit v = false := by
  unfold matchPhoneAt at h
  split at h
  · cases h
  next hprev =>
    split at h
    · cases h
    next pre rest hpre =>
      split at h
      next hlen =>
        injection h with h
        subst h
        rcases phonePrefixSplit_eq hpre with ⟨hl, hdisj⟩
        refine ⟨⟨pre, rest.takeWhile phoneSep, rfl, hdisj, hlen, ?_⟩,
          by simpa using hprev, rest.dropWhile phoneSep, ?_, ?_⟩
        · intro x hx; exact List.mem_takeWhile_imp hx
        · rw [hl]
          conv_lhs => rw [← List.takeWhile_append_dropWhile (p := phoneSep) (l := rest)]
          simp [List.append_assoc]
        · cases hv : rest.dropWhile phoneSep with
          | nil => rfl
          | cons x xs =>
            have := not_phoneSep_not_digit (dropWhile_head_false hv)
            simpa [headIsDigit] using this
      · cases h

theorem matchPhoneAt_complete {prev : Option Char} {m : List Char} (v : List Char)
    (hm : PhoneShape m) (hprev : prevIsDigit prev = false) :
    ∃ m', matchPhoneAt prev (m ++ v) = some m' := by
  rcases hm with ⟨pre, run, rfl, hdisj, hlen, hrun⟩
  have hassoc : (pre ++ run) ++ v = pre ++ (run ++ v) := List.append_assoc pre run v
  have hsplit : phonePrefixSplit (pre ++ (run ++ v)) = some (pre, run ++ v) := by
    rcases hdisj with h | h | h <;> subst h <;> rfl
  have htake : (run ++ v).takeWhile phoneSep = run ++ v.takeWhile phoneSep :=
    takeWhile_append_all run v hrun
  have hlen2 : 8 ≤ ((run ++ v).takeWhile phoneSep).length := by
    rw [htake, List.length_append]
    omega
  refine ⟨pre ++ (run ++ v).takeWhile phoneSep, ?_⟩
  unfold matchPhoneAt
  rw [hprev, hassoc, hsplit]
  simp only [if_pos hlen2]
  rfl

/-! ### Search-level characterizations -/

theorem emailSearch_none_iff (t : List Char) :
    emailSearch t = none ↔ ¬ ∃ m i, EmailOccursAt t m i := by
  unfold emailSearch
  rw [reSearchAux_eq_none_iff]
  constructor
  · rintro h ⟨m, i, hshape, u, v, ht, hi⟩
    have h2 := h u (m ++ v) (by rw [ht, List.append_assoc])
    rcases matchEmailAt_complete v hshape with ⟨m', hm'⟩
    rw [hm'] at h2
    cases h2
  · intro hno u v huv
    cases hM : matchEmailAt v with
    | none => rfl
    | some m =>
      exfalso
      rcases matchEmailAt_some hM with ⟨hsh, w, hvw⟩
      exact hno ⟨m, u.length, hsh, u, w, by rw [huv, hvw, List.append_assoc], rfl⟩

theorem emailSearch_some_spec {t m : List Char} (h : emailSearch t = some m) :
    ∃ i, EmailOccursAt t m i ∧ ∀ m' i', EmailOccursAt t m' i' → i ≤ i' := by
  rcases reSearchAux_eq_some _ t none m h with ⟨u, v, htuv, hmatch, hmin⟩
  rcases matchEmailAt_some hmatch with ⟨hsh, w, hvw⟩
  refine ⟨u.length, ⟨hsh, u, w, by rw [htuv, hvw, List.append_assoc], rfl⟩, ?_⟩
  rintro m' i' ⟨hsh', u', v', ht', hi'⟩
  by_contra hlt
  push_neg at hlt
  have hnone := hmin u' (m' ++ v') (by rw [ht', List.append_assoc]) (by omega)
  rcases matchEmailAt_complete v' hsh' with ⟨m'', hm''⟩
  rw [hm''] at hnone
  cases hnone

theorem phoneSearch_none_iff (t : List Char) :
    phoneSearch t = none ↔ ¬ ∃ m i, PhoneOccursAt t m i := by
  unfold phoneSearch
  rw [reSearchAux_eq_none_iff]
  constructor
  · rintro h ⟨m, i, hshape, u, v, ht, hi, hprev, hhead⟩
    have h2 := h u (m ++ v) (by rw [ht, List.append_assoc])
    rcases matchPhoneAt_complete v hshape hprev with ⟨m', hm'⟩
    rw [hm'] at h2
    cases h2
  · intro hno u v huv
    cases hM : matchPhoneAt (lastOr none u) v with
    | none => rfl
    | some m =>
      exfalso
      rcases matchPhoneAt_some hM with ⟨hsh, hprev, w, hvw, hw⟩
      exact hno ⟨m, u.length, hsh, u, w, by rw [huv, hvw, List.append_assoc], rfl, hprev, hw⟩

theorem phoneSearch_some_spec {t m : List Char} (h : phoneSearch t = some m) :
    ∃ i, PhoneOccursAt t m i ∧ ∀ m' i', PhoneOccursAt t m' i' → i ≤ i' := by
  rcases reSearchAux_eq_some _ t none m h with ⟨u, v, htuv, hmatch, hmin⟩
  rcases matchPhoneAt_some hmatch with ⟨hsh, hprev, w, hvw, hw⟩
  refine ⟨u.length, ⟨hsh, u, w, by rw [htuv, hvw, List.append_assoc], rfl, hprev, hw⟩, ?_⟩
  rintro m' i' ⟨hsh', u', v', ht', hi', hprev', hhead'⟩
  by_contra hlt
  push_neg at hlt
  have hnone := hmin u' (m' ++ v') (by rw [ht', List.append_assoc]) (by omega)
  rcases matchPhoneAt_complete v' hsh' hprev' with ⟨m'', hm''⟩
  rw [hm''] at hnone
  cases hnone

/-! ### Claim theorems -/

/-- Claim C7: for every text containing a substring matching the email token
pattern, the email component of `extract_contact_info` is a pattern match
occurring at the first (leftmost) position at which any pattern match occurs
(at that position the regex returns its greedy match); for every text with no
such substring the component is the empty string (the code's encoding of
absent). -/
theorem email_extraction_first_match (t : List Char) :
    ((∃ m i, EmailOccursAt t m i) →
      ∃ m i, (extract_contact_info t).2.1 = m ∧ EmailOccursAt t m i ∧
        ∀ m' i', EmailOccursAt t m' i' → i ≤ i') ∧
    ((¬ ∃ m i, EmailOccursAt t m i) → (extract_contact_info t).2.1 = []) := by
  constructor
  · intro hex
    cases hsome : emailSearch t with
    | none => exact absurd hex ((emailSearch_none_iff t).mp hsome)
    | some m =>
      rcases emailSearch_some_spec hsome with ⟨i, hocc, hmin⟩
      refine ⟨m, i, ?_, hocc, hmin⟩
      show (emailSearch t).getD [] = m
      rw [hsome]
      rfl
  · intro hno
    have h := (emailSearch_none_iff t).mpr hno
    show (emailSearch t).getD [] = []
    rw [h]
    rfl

/-- Witness for C7 at the concrete text "a@b". -/
theorem email_extraction_first_match_witness :
    ∃ m i, (extract_contact_info "a@b".toList).2.1 = m ∧
      EmailOccursAt "a@b".toList m i ∧
      ∀ m' i', EmailOccursAt "a@b".toList m' i' → i ≤ i' :=
  (email_extraction_first_match _).1
    ⟨"a@b".toList, 0,
      ⟨['a'], ['b'], by decide, by decide, by decide, by decide, by decide⟩,
      [], [], by decide, rfl⟩

/-- Claim C8: for every text containing a substring of the phone-pattern shape
(`+62`/`08`/`62` head, 8 or more digit/space/hyphen characters, not
digit-adjacent on either side), the phone component of `extract_contact_info`
is such a match occurring at the first position at which any such match
occurs; for every text with no such substring the component is the empty
string. -/
theorem phone_extraction_first_match (t : List Char) :
    ((∃ m i, PhoneOccursAt t m i) →
      ∃ m i, (extract_contact_info t).2.2 = m ∧ PhoneOccursAt t m i ∧
        ∀ m' i', PhoneOccursAt t m' i' → i ≤ i') ∧
    ((¬ ∃ m i, PhoneOccursAt t m i) → (extract_contact_info t).2.2 = []) := by
  constructor
  · intro hex
    cases hsome : phoneSearch t with
    | none => exact absurd hex ((phoneSearch_none_iff t).mp hsome)
    | some m =>
      rcases phoneSearch_some_spec hsome with ⟨i, hocc, hmin⟩
      refine ⟨m, i, ?_, hocc, hmin⟩
      show (phoneSearch t).getD [] = m
      rw [hsome]
      rfl
  · intro hno
    have h := (phoneSearch_none_iff t).mpr hno
    show (phoneSearch t).getD [] = []
    rw [h]
    rfl

/-- Witness for C8 at the concrete text "0812345678". -/
theorem phone_extraction_first_match_witness :
    ∃ m i, (extract_contact_info "0812345678".toList).2.2 = m ∧
      PhoneOccursAt "0812345678".toList m i ∧
      ∀ m' i', PhoneOccursAt "0812345678".toList m' i' → i ≤ i' :=
  (phone_extraction_first_match _).1
    ⟨"0812345678".toList, 0,
      ⟨⟨['0', '8'], "12345678".toList, by decide, Or.inr (Or.inl rfl), by decide, by decide⟩,
        [], [], by decide, rfl, rfl, rfl⟩⟩

/-- Claim C9: the greeting target computed by `generate_prompt` is
"to {name}, {role}" when both HR fields are non-empty, the HR name alone when
only the name is non-empty, and "the Hiring Manager" whenever the name is
empty (in particular when only the role is given). -/
theorem hr_line_cases (hr_name hr_role : String) :
    (hr_name ≠ "" → hr_role ≠ "" →
      hr_line hr_name hr_role = "to " ++ hr_name ++ ", " ++ hr_role) ∧
    (hr_name ≠ "" → hr_role = "" → hr_line hr_name hr_role = hr_name) ∧
    (hr_name = "" → hr_line hr_name hr_role = "the Hiring Manager") := by
  refine ⟨fun h1 h2 => ?_, fun h1 h2 => ?_, fun h1 => ?_⟩
  · simp [hr_line, h1, h2]
  · simp [hr_line, h1, h2]
  · simp [hr_line, h1]

/-- Witness for C9: HR name given, HR role empty resolves to the name alone
(spec Scenario E). -/
theorem hr_line_cases_witness : hr_line "Sarah" "" = "Sarah" :=
  (hr_line_cases "Sarah" "").2.1 (by decide) rfl

/-- Claim C2 (code bug): prompt assembly never returns the composed prompt.
For every combination of inputs, `generate_prompt` raises `NameError` on the
unbound name `today_date` (app.py line 119 interpolates `{today_date}` but the
active code only defines `today`), so it is not the total
prompt-string-returning function the claim describes. -/
theorem generate_prompt_today_date_error
    (cv_text name email phone job_title company job_desc job_reqs : String)
    (word_len : Nat) (hr_name hr_role language today : String) :
    generate_prompt cv_text name email phone job_title company job_desc job_reqs
      word_len hr_name hr_role language today = .error "today_date" := rfl

/-- Witness for C2: the failure at one concrete submission. -/
theorem generate_prompt_today_date_error_witness :
    generate_prompt "cv" "John" "j@m.com" "0812345678" "Engineer" "Acme" "desc" "reqs"
      100 "" "" "English" "12 October 2026" = .error "today_date" :=
  generate_prompt_today_date_error "cv" "John" "j@m.com" "0812345678" "Engineer" "Acme"
    "desc" "reqs" 100 "" "" "English" "12 October 2026"

/-- Counterexample to claim C3: on the Scenario A text the phone component is
not the bare 11-digit string - the greedy `[\d\s\-]{8,}` run also consumes the
newline that follows the digits. -/
theorem scenarioA_phone_counterexample :
    (extract_contact_info scenarioA).2.2 ≠ "08123456789".toList := by decide

/-- Claim C3 as amended: on the Scenario A text, extraction returns the name
"John Smith", the email "john.smith@mail.com", and the phone
"08123456789\n" - the 11 digits plus the trailing newline captured by the
whitespace-capable separator class. -/
theorem scenarioA_extraction :
    extract_contact_info scenarioA =
      (some "John Smith".toList, "john.smith@mail.com".toList,
        "08123456789\n".toList) := by decide

/-- Counterexample to claim C4: on the Scenario D letter text the output
contains three paragraph blocks, not two - `export_pdf` splits on every single
newline (app.py line 134 `letter_text.split('\n')`), so the salutation line
does not merge into the first blank-line-delimited paragraph. -/
theorem export_pdf_counterexample :
    (exportParagraphs scenarioD).length = 3 ∧
      (exportParagraphs scenarioD).length ≠ 2 := by decide

/-- Claim C4 as amended: `export_pdf` splits the letter on single newlines,
discards the lines that are empty after stripping, and renders each surviving
line, stripped, as one paragraph block in original order; the Scenario D text
therefore yields the three blocks "Dear Hiring Manager,", "Para one.",
"Para two.", and a text containing no newline at all (and not all whitespace)
yields exactly one block. -/
theorem export_pdf_amended :
    (∀ s : List Char, '\n' ∉ s → stripL s ≠ [] → exportParagraphs s = [stripL s]) ∧
    exportParagraphs scenarioD =
      ["Dear Hiring Manager,".toList, "Para one.".toList, "Para two.".toList] := by
  constructor
  · intro s hnl hs
    unfold exportParagraphs
    rw [splitOnNl_no_nl hnl]
    simp [List.filter_cons, hs]
  · decide

/-- Witness for C4 (amended): a newline-free text is a single paragraph. -/
theorem export_pdf_amended_witness :
    exportParagraphs "abc".toList = [stripL "abc".toList] :=
  export_pdf_amended.1 "abc".toList (by decide) (by decide)

/-- Counterexample to claim C5: on the text " John\nbob" (uppercase first
letter behind leading whitespace) the spec's rule - test the first character
after trimming - yields "John", but the code tests `line[0]` on the raw line
(app.py line 73) and returns None. -/
theorem name_rule_counterexample :
    specNameRule " John\nbob".toList = some "John".toList ∧
    (extract_contact_info " John\nbob".toList).1 = none := by decide

/-- Claim C5 as amended: name extraction inspects only the first 10 lines and
returns, trimmed, the first line whose first character before trimming is an
uppercase letter; a line whose uppercase letter is preceded by leading
whitespace does not qualify; the result is None when no line among the first
10 qualifies. -/
theorem name_extraction_amended (t : List Char) :
    ((extract_contact_info t).1 = none ↔
      ∀ l ∈ (splitlinesL t).take 10, nameLineOk l = false) ∧
    (∀ s, (extract_contact_info t).1 = some s →
      ∃ l₁ l l₂, (splitlinesL t).take 10 = l₁ ++ l :: l₂ ∧ nameLineOk l = true ∧
        s = stripL l ∧ ∀ x ∈ l₁, nameLineOk x = false) ∧
    (∀ t' : List Char, (splitlinesL t).take 10 = (splitlinesL t').take 10 →
      (extract_contact_info t).1 = (extract_contact_info t').1) := by
  refine ⟨?_, ?_, ?_⟩
  · show extractName t = none ↔ _
    simp [extractName, Option.map_eq_none', List.find?_eq_none]
  · intro s hs
    have hmap : (((splitlinesL t).take 10).find? nameLineOk).map stripL = some s := hs
    rcases Option.map_eq_some'.mp hmap with ⟨l, hfind, hstrip⟩
    rcases find?_some_split hfind with ⟨l₁, l₂, hsplit, hok, hall⟩
    exact ⟨l₁, l, l₂, hsplit, hok, hstrip.symm, hall⟩
  · intro t' heq
    show extractName t = extractName t'
    unfold extractName
    rw [heq]

/-- Witness for C5 (amended) at the concrete text "Alice\nbob". -/
theorem name_extraction_amended_witness :
    ∃ l₁ l l₂, (splitlinesL "Alice\nbob".toList).take 10 = l₁ ++ l :: l₂ ∧
      nameLineOk l = true ∧ "Alice".toList = stripL l ∧
      ∀ x ∈ l₁, nameLineOk x = false :=
  (name_extraction_amended "Alice\nbob".toList).2.1 "Alice".toList (by decide)

/-- Counterexample to claim C6: a supported-format file whose decoder raises
does not yield the empty string - the active `extract_text` has no exception
handler, so the failure propagates. -/
theorem extract_text_counterexample :
    extract_text corruptPdf = .exc "PdfReadError" ∧
      extract_text corruptPdf ≠ .ok "" := by decide

/-- Claim C6 as amended: a file of any unsupported declared type yields the
empty string, but for each of the three supported types a decoder failure
propagates out of `extract_text` as the raised exception. -/
theorem extract_text_amended (f : UploadedFile) (e : String) :
    (f.type ≠ "application/pdf" →
      f.type ≠ "application/vnd.openxmlformats-officedocument.wordprocessingml.document" →
      f.type ≠ "text/plain" → extract_text f = .ok "") ∧
    (f.type = "application/pdf" → f.pdfText = .exc e → extract_text f = .exc e) ∧
    (f.type = "application/vnd.openxmlformats-officedocument.wordprocessingml.document" →
      f.docxText = .exc e → extract_text f = .exc e) ∧
    (f.type = "text/plain" → f.txtText = .exc e → extract_text f = .exc e) := by
  refine ⟨?_, ?_, ?_, ?_⟩
  · intro h1 h2 h3
    simp [extract_text, h1, h2, h3]
  · intro h1 he
    simp [extract_text, h1, he]
  · intro h1 he
    simp [extract_text, h1, he]
  · intro h1 he
    simp [extract_text, h1, he]

/-- Witness for C6 (amended): a corrupt office document propagates its
decoder's exception. -/
theorem extract_text_amended_witness :
    extract_text
      { type := "application/vnd.openxmlformats-officedocument.wordprocessingml.document",
        pdfText := .ok "", docxText := .exc "BadZipFile", txtText := .ok "" } =
      .exc "BadZipFile" :=
  (extract_text_amended _ "BadZipFile").2.2.1 rfl rfl

/-- Counterexample to claim C1: a submitted state whose job title and job
description are both empty still reaches the generation attempt (the spinner
block of app.py lines 154-164 that builds the prompt and calls the model),
because the guard on line 153 checks only `name and email and phone`. -/
theorem generation_gate_counterexample :
    stateMissingJob.job_title = "" ∧ stateMissingJob.job_desc = "" ∧
      generationAttempted stateMissingJob = true :=
  ⟨rfl, rfl, by decide⟩

/-- Claim C1 as amended: generation is attempted exactly when the form was
submitted with an uploaded file, text extraction did not raise, and the three
resolved contact fields (extracted value, or the manual fallback when the
extracted one is absent) are all non-empty; the job title, company and job
description take no part in the gate - changing them never changes whether
generation is attempted. -/
theorem generation_gate (st : AppState) (jt c jd : String) :
    (generationAttempted st = true ↔
      ∃ n e p, pipelineContact st = some (n, e, p) ∧ n ≠ [] ∧ e ≠ [] ∧ p ≠ []) ∧
    generationAttempted { st with job_title := jt, company := c, job_desc := jd } =
      generationAttempted st := by
  constructor
  · simp only [generationAttempted]
    cases hpc : pipelineContact st with
    | none => simp
    | some tup =>
      rcases tup with ⟨n, e, p⟩
      simp
      constructor
      · rintro ⟨⟨h1, h2⟩, h3⟩
        exact ⟨n, e, p, ⟨rfl, rfl, rfl⟩, h1, h2, h3⟩
      · rintro ⟨n', e', p', ⟨rfl, rfl, rfl⟩, h1, h2, h3⟩
        exact ⟨⟨h1, h2⟩, h3⟩
  · rcases st with ⟨⟩
    rfl

/-- Witness for C1 (amended): the gate value is unchanged when the job fields
of the counterexample state are filled in. -/
theorem generation_gate_witness :
    generationAttempted
        { stateMissingJob with job_title := "Engineer", company := "Beta", job_desc := "Build" } =
      generationAttempted stateMissingJob :=
  (generation_gate stateMissingJob "Engineer" "Beta" "Build").2

/-- Claim C10: contact extraction is a total function (the embedding is a plain
Lean function: every partial source operation, namely `line[0]`, sits behind
the `line` truthiness guard), and absence is encoded asymmetrically: an absent
name is `None` while an absent email or phone is the empty string; conversely
a present email or phone is never the empty string. -/
theorem contact_absence_encoding (t : List Char) :
    ((extract_contact_info t).1 = none ↔
      ∀ l ∈ (splitlinesL t).take 10, nameLineOk l = false) ∧
    ((extract_contact_info t).2.1 = [] ↔ ¬ ∃ m i, EmailOccursAt t m i) ∧
    ((extract_contact_info t).2.2 = [] ↔ ¬ ∃ m i, PhoneOccursAt t m i) := by
  refine ⟨?_, ?_, ?_⟩
  · show extractName t = none ↔ _
    simp [extractName, Option.map_eq_none', List.find?_eq_none]
  · constructor
    · intro h0
      cases hsome : emailSearch t with
      | none => exact (emailSearch_none_iff t).mp hsome
      | some m =>
        exfalso
        have hm : (extract_contact_info t).2.1 = m := by
          show (emailSearch t).getD [] = m
          rw [hsome]
          rfl
        have hnil : m = [] := hm ▸ h0
        rcases emailSearch_some_spec hsome with ⟨i, ⟨⟨a, b, hmeq, ha, hb, _, _⟩, _⟩, _⟩
        have : a ++ '@' :: b = [] := hmeq ▸ hnil
        cases (List.append_eq_nil.mp this).2
    · intro hno
      have h := (emailSearch_none_iff t).mpr hno
      show (emailSearch t).getD [] = []
      rw [h]
      rfl
  · constructor
    · intro h0
      cases hsome : phoneSearch t with
      | none => exact (phoneSearch_none_iff t).mp hsome
      | some m =>
        exfalso
        have hm : (extract_contact_info t).2.2 = m := by
          show (phoneSearch t).getD [] = m
          rw [hsome]
          rfl
        have hnil : m = [] := hm ▸ h0
        rcases phoneSearch_some_spec hsome with ⟨i, ⟨⟨pre, run, hmeq, hdisj, _, _⟩, _⟩, _⟩
        have hpre : pre ++ run = [] := hmeq ▸ hnil
        have : pre = [] := (List.append_eq_nil.mp hpre).1
        rcases hdisj with h | h | h <;> simp [h] at this
    · intro hno
      have h := (phoneSearch_none_iff t).mpr hno
      show (phoneSearch t).getD [] = []
      rw [h]
      rfl

/-- Witness for C10 at the concrete text "Contact: x@y, tel 0812-345-678". -/
theorem contact_absence_encoding_witness :
    (((extract_contact_info "Contact: x@y, tel 0812-345-678".toList).1 = none ↔
      ∀ l ∈ (splitlinesL "Contact: x@y, tel 0812-345-678".toList).take 10,
        nameLineOk l = false) ∧
    (((extract_contact_info "Contact: x@y, tel 0812-345-678".toList).2.1 = [] ↔
      ¬ ∃ m i, EmailOccursAt "Contact: x@y, tel 0812-345-678".toList m i)) ∧
    ((extract_contact_info "Contact: x@y, tel 0812-345-678".toList).2.2 = [] ↔
      ¬ ∃ m i, PhoneOccursAt "Contact: x@y, tel 0812-345-678".toList m i)) :=
  contact_absence_encoding _

end CoverLetter
